import Mathlib

/-!
# Verification of the stock-chatbot data-access layer

Shallow embedding of `src/mcp-server/src/stock_data.py` (class `IndianStockData`):
the symbol-alias table, quote fetch with fallback, historical data fetch,
gainers/losers ranking, symbol search, and the `functools.lru_cache` memoization
of `get_stock_info`.

Modelling conventions:
* Python float values are modelled as rationals (`ℚ`); upstream volume counts as `ℤ`.
* A Python dict field that may be absent is an `Option`; the literal string
  `"N/A"` used by the code as its "unavailable" placeholder is the constructor
  `FieldVal.na`.
* The upstream provider (`yfinance`) is a parameter: `stock.info` appears as a
  value of type `Except String (Option YfInfo)` (`.error e` models the call
  raising an exception with message `e`, `.ok none` models an empty dict,
  `.ok (some i)` a dict with the modelled keys), and `stock.history(...)` as
  `Except String (List HistRow)`.
* Python's wall clock is threaded explicitly where a claim mentions time.
-/

namespace StockData

/-- A value stored in one of the result dicts: a number, a string, or the
`"N/A"` placeholder the code uses for unavailable fields. -/
inductive FieldVal where
  | num (q : ℚ)
  | str (s : String)
  | na
deriving DecidableEq, Repr

/-- Python `str.upper()` restricted to the ASCII strings this code handles. -/
def pyUpper (s : String) : String := ⟨s.data.map Char.toUpper⟩

/-- Python `str.lower()` restricted to the ASCII strings this code handles. -/
def pyLower (s : String) : String := ⟨s.data.map Char.toLower⟩

/-- `load_nse_symbols`: the alias table, in the insertion order of the Python
dict literal (Python dicts preserve insertion order). -/
def nseSymbols : List (String × String) :=
  [("RELIANCE", "RELIANCE.NS"),
   ("TCS", "TCS.NS"),
   ("INFY", "INFY.NS"),
   ("HDFCBANK", "HDFCBANK.NS"),
   ("ICICIBANK", "ICICIBANK.NS"),
   ("HINDUNILVR", "HINDUNILVR.NS"),
   ("SBIN", "SBIN.NS"),
   ("BHARTIARTL", "BHARTIARTL.NS"),
   ("ITC", "ITC.NS"),
   ("KOTAKBANK", "KOTAKBANK.NS"),
   ("LT", "LT.NS"),
   ("ASIANPAINT", "ASIANPAINT.NS"),
   ("MARUTI", "MARUTI.NS"),
   ("BAJFINANCE", "BAJFINANCE.NS"),
   ("HCLTECH", "HCLTECH.NS")]

/-- The symbol-resolution expression that appears (three times) in the code:
`self.nse_symbols.get(symbol.upper(), f"{symbol.upper()}.NS")`. -/
def resolveSymbol (symbol : String) : String :=
  (nseSymbols.lookup (pyUpper symbol)).getD (pyUpper symbol ++ ".NS")

/-- `needle` is an initial segment of `hay` (helper for the substring test). -/
def leadsWith : List Char → List Char → Bool
  | [], _ => true
  | _ :: _, [] => false
  | a :: as, b :: bs => a == b && leadsWith as bs

/-- Python's `needle in hay` substring test on char lists. -/
def occursIn (needle : List Char) : List Char → Bool
  | [] => leadsWith needle []
  | b :: bs => leadsWith needle (b :: bs) || occursIn needle bs

/-- Python's `sub in hay` on strings. -/
def strOccurs (hay sub : String) : Bool := occursIn sub.data hay.data

/-- Round to the nearest integer, ties to even — the rounding mode of Python's
built-in `round`. -/
def roundHalfEven (x : ℚ) : ℤ :=
  if x - Rat.floor x < 1/2 then Rat.floor x
  else if x - Rat.floor x > 1/2 then Rat.floor x + 1
  else if Rat.floor x % 2 = 0 then Rat.floor x else Rat.floor x + 1

/-- Python's `round(x, 2)`. -/
def round2 (x : ℚ) : ℚ := (roundHalfEven (x * 100) : ℚ) / 100

/-- The keys of the `stock.info` dict that `get_stock_info` reads.  A key that
may be missing from the upstream dict is an `Option` field. -/
structure YfInfo where
  regularMarketPrice : Option ℚ := none
  previousClose : Option ℚ := none
  longName : Option String := none
  volume : Option ℚ := none
  marketCap : Option ℚ := none
  trailingPE : Option ℚ := none
  dividendYield : Option ℚ := none
  fiftyTwoWeekHigh : Option ℚ := none
  fiftyTwoWeekLow : Option ℚ := none
  sector : Option String := none
  industry : Option String := none
deriving DecidableEq

/-- `info.get(key, 'N/A')` for a numeric field. -/
def optQ : Option ℚ → FieldVal
  | some q => .num q
  | none => .na

/-- `info.get(key, 'N/A')` for a string field. -/
def optS : Option String → FieldVal
  | some s => .str s
  | none => .na

/-- The success dict built by `get_stock_info` / `_fallback_stock_info`. -/
structure StockQuote where
  symbol : String
  company_name : FieldVal
  current_price : ℚ
  previous_close : ℚ
  change : ℚ
  change_percent : FieldVal
  volume : FieldVal
  market_cap : FieldVal
  pe_ratio : FieldVal
  dividend_yield : FieldVal
  week52_high : FieldVal
  week52_low : FieldVal
  sector : FieldVal
  industry : FieldVal
deriving DecidableEq

/-- Result of `get_stock_info`: either the success dict or a dict with the
single key `"error"`. -/
inductive StockResult where
  | ok (q : StockQuote)
  | error (msg : String)
deriving DecidableEq

/-- One row of the pandas frame returned by `stock.history(...)`. -/
structure HistRow where
  date : String
  open_ : ℚ
  high : ℚ
  low : ℚ
  close : ℚ
  volume : ℤ
deriving DecidableEq

/-- `_fallback_stock_info`: derive a quote from a 5-day history window.
`histFetch` is the outcome of `stock.history(period="5d")` for the resolved
symbol: an exception, or the rows of the frame (`.ok []` is an empty frame). -/
def fallbackStockInfo (histFetch : Except String (List HistRow)) (symbol : String) :
    StockResult :=
  match histFetch with
  | .error e => .error ("Fallback failed: " ++ e)
  | .ok [] => .error "No fallback data available."
  | .ok (h :: t) =>
    let rows := h :: t
    let current_price := (rows.getLastD h).close
    let prev_price := if 1 < rows.length then (rows.dropLast.getLastD h).close
                      else current_price
    let change := current_price - prev_price
    let change_percent := if prev_price ≠ 0 then change / prev_price * 100 else 0
    .ok { symbol := pyUpper symbol,
          company_name := .str (pyUpper symbol),
          current_price := round2 current_price,
          previous_close := round2 prev_price,
          change := round2 change,
          change_percent := .num (round2 change_percent),
          volume := .num ((rows.getLastD h).volume : ℚ),
          market_cap := .na,
          pe_ratio := .na,
          dividend_yield := .na,
          week52_high := .na,
          week52_low := .na,
          sector := .na,
          industry := .na }

/-- `get_stock_info` (body inside the decorators).  `infoFetch` is the outcome
of `yf.Ticker(resolveSymbol symbol).info`: `.error e` models the surrounding
I/O raising, `.ok none` an empty dict, `.ok (some info)` a dict.  The guard
`not info or 'regularMarketPrice' not in info` holds exactly when the fetched
dict is `none` or its `regularMarketPrice` key is absent. -/
def getStockInfo (infoFetch : Except String (Option YfInfo))
    (histFetch : Except String (List HistRow)) (symbol : String) : StockResult :=
  match infoFetch with
  | .error e => .error ("Error fetching data for " ++ symbol ++ ": " ++ e)
  | .ok none => fallbackStockInfo histFetch symbol
  | .ok (some info) =>
    match info.regularMarketPrice with
    | none => fallbackStockInfo histFetch symbol
    | some current_price =>
      let previous_close := info.previousClose.getD current_price
      let change := current_price - previous_close
      let change_percent := if previous_close ≠ 0 then change / previous_close * 100
                            else 0
      .ok { symbol := pyUpper symbol,
            company_name := optS info.longName,
            current_price := round2 current_price,
            previous_close := round2 previous_close,
            change := round2 change,
            change_percent := .num (round2 change_percent),
            volume := optQ info.volume,
            market_cap := optQ info.marketCap,
            pe_ratio := optQ info.trailingPE,
            dividend_yield := optQ info.dividendYield,
            week52_high := optQ info.fiftyTwoWeekHigh,
            week52_low := optQ info.fiftyTwoWeekLow,
            sector := optS info.sector,
            industry := optS info.industry }

/-- One row of the list built by `get_historical_data`. -/
structure HistOut where
  date : String
  open_ : ℚ
  high : ℚ
  low : ℚ
  close : ℚ
  volume : ℤ
deriving DecidableEq

/-- The row conversion in `get_historical_data`'s loop. -/
def histRowOut (r : HistRow) : HistOut :=
  { date := r.date, open_ := round2 r.open_, high := round2 r.high,
    low := round2 r.low, close := round2 r.close, volume := r.volume }

/-- The success dict built by `get_historical_data`. -/
structure HistSeries where
  symbol : String
  period : String
  data : List HistOut
deriving DecidableEq

/-- Result of `get_historical_data`. -/
inductive HistResult where
  | ok (h : HistSeries)
  | error (msg : String)
deriving DecidableEq

/-- `get_historical_data`.  `histFetch` is the outcome of
`yf.Ticker(resolveSymbol symbol).history(period=period)`. -/
def getHistoricalData (histFetch : Except String (List HistRow))
    (symbol period : String) : HistResult :=
  match histFetch with
  | .error e =>
    .error ("Error fetching historical data for " ++ symbol ++ ": " ++ e)
  | .ok hist =>
    if hist.isEmpty then .error ("No historical data found for " ++ symbol)
    else .ok { symbol := pyUpper symbol, period := period,
               data := hist.map histRowOut }

/-- `s.get('change_percent', 0)`: the sort/filter key of
`get_top_gainers_losers`.  On a success dict the field is always a number; the
other cases mirror the `0` default. -/
def changePercentKey (q : StockQuote) : ℚ :=
  match q.change_percent with
  | .num x => x
  | .str _ => 0
  | .na => 0

/-- Stable insertion: place `a` before the first element `b` with `r a b`.
With `r` total this is the unique stable sort order, i.e. the behaviour of
Python's (stable) `sorted`. -/
def pyInsert (r : α → α → Bool) (a : α) : List α → List α
  | [] => [a]
  | b :: l => if r a b then a :: b :: l else b :: pyInsert r a l

/-- Stable sort with respect to `r` (insertion sort; Python's `sorted` is
stable, and a stable sort's output is uniquely determined by the order, so any
stable sort models it). -/
def pySorted (r : α → α → Bool) : List α → List α
  | [] => []
  | a :: l => pyInsert r a (pySorted r l)

/-- `sorted(..., key=..., reverse=True)`: descending by key, stable. -/
def descBy (key : α → ℚ) (a b : α) : Bool := decide (key b ≤ key a)

/-- `sorted(..., key=...)`: ascending by key, stable. -/
def ascBy (key : α → ℚ) (a b : α) : Bool := decide (key a ≤ key b)

/-- The watch-list loop of `get_top_gainers_losers`: fetch each symbol, keep
the results without an `"error"` key. -/
def collectStocks (fetch : String → StockResult) : List String → List StockQuote
  | [] => []
  | s :: rest =>
    match fetch s with
    | .ok q => q :: collectStocks fetch rest
    | .error _ => collectStocks fetch rest

/-- The dict returned by `get_top_gainers_losers`. -/
structure MoverList where
  top_gainers : List StockQuote
  top_losers : List StockQuote
  timestamp : String
deriving DecidableEq

/-- `list(self.nse_symbols.keys())[:10]`: the watch-list slice that
`get_top_gainers_losers` iterates. -/
def watchUsed : List String := (nseSymbols.map Prod.fst).take 10

/-- `sorted([s for s in stocks_data if s.get('change_percent', 0) > 0],
key=..., reverse=True)`: the gainers before truncation. -/
def gainersSorted (stocks_data : List StockQuote) : List StockQuote :=
  pySorted (descBy changePercentKey)
    (stocks_data.filter (fun s => decide (0 < changePercentKey s)))

/-- `sorted([s for s in stocks_data if s.get('change_percent', 0) < 0],
key=...)`: the losers before truncation. -/
def losersSorted (stocks_data : List StockQuote) : List StockQuote :=
  pySorted (ascBy changePercentKey)
    (stocks_data.filter (fun s => decide (changePercentKey s < 0)))

/-- `get_top_gainers_losers`.  `fetch` is the behaviour of
`self.get_stock_info` on this run; `now` is `datetime.now().isoformat()`. -/
def getTopGainersLosers (fetch : String → StockResult) (now : String) : MoverList :=
  { top_gainers := (gainersSorted (collectStocks fetch watchUsed)).take 5,
    top_losers := (losersSorted (collectStocks fetch watchUsed)).take 5,
    timestamp := now }

/-- The keys of `stock.info` read by `search_stocks`' enrichment. -/
structure EnrichInfo where
  longName : Option String := none
  sector : Option String := none
deriving DecidableEq

/-- One entry of the list returned by `search_stocks`. -/
structure SearchEntry where
  symbol : String
  company_name : FieldVal
  sector : FieldVal
deriving DecidableEq

/-- The dict appended for a matching symbol: enriched from `stock.info` when
the lookup succeeds, the `"N/A"` placeholder dict when it raises. -/
def searchEntry (enrich : String → Except String EnrichInfo) (sym yfSym : String) :
    SearchEntry :=
  match enrich yfSym with
  | .ok info => { symbol := sym, company_name := optS info.longName,
                  sector := optS info.sector }
  | .error _ => { symbol := sym, company_name := .na, sector := .na }

/-- The matching loop of `search_stocks` over the alias table. -/
def searchLoop (enrich : String → Except String EnrichInfo)
    (queryLower : List Char) : List (String × String) → List SearchEntry
  | [] => []
  | (sym, yfSym) :: rest =>
    if occursIn queryLower (pyLower sym).data then
      searchEntry enrich sym yfSym :: searchLoop enrich queryLower rest
    else searchLoop enrich queryLower rest

/-- `search_stocks`.  `enrich` is the behaviour of `yf.Ticker(...).info` for
each provider symbol (`.error` models it raising). -/
def searchStocks (enrich : String → Except String EnrichInfo) (query : String) :
    List SearchEntry :=
  (searchLoop enrich (pyLower query).data nseSymbols).take 10

/-- Modelled from the spec (section 4.6), for comparison with `searchStocks`:
"substring, case-insensitive match of a query against canonical ticker names in
the alias table ... at most 10 matches, in alias-table iteration order", with
per-symbol enrichment failures masked by placeholder fields. -/
def searchSpec (enrich : String → Except String EnrichInfo) (query : String) :
    List SearchEntry :=
  ((nseSymbols.filter
      (fun p => occursIn (pyLower query).data (pyLower p.1).data)).map
    (fun p => searchEntry enrich p.1 p.2)).take 10

/-- State of the `functools.lru_cache(maxsize=128)` wrapped around
`get_stock_info`: the cached entries in most-recently-used-first order, plus a
count of the calls that reached the wrapped function (upstream fetches). -/
structure CacheState where
  entries : List (String × StockResult)
  fetchCount : ℕ
deriving DecidableEq

/-- `maxsize` of the `lru_cache` on `get_stock_info`. -/
def lruMaxsize : ℕ := 128

/-- The cache before any call. -/
def emptyCache : CacheState := ⟨[], 0⟩

/-- One call to the memoized `get_stock_info`.  `fetch t symbol` is what the
wrapped body would return at wall-clock time `t`; the time is threaded only to
make explicit that `lru_cache`'s hit/miss decision never consults it.  On a
hit the cached value is returned (and moved to the front); on a miss the body
runs, and the least-recently-used entry is evicted when the cache is full. -/
def cachedGetStockInfo (fetch : ℕ → String → StockResult) (t : ℕ)
    (symbol : String) (st : CacheState) : StockResult × CacheState :=
  match st.entries.lookup symbol with
  | some v =>
    (v, { st with entries := (symbol, v) :: st.entries.eraseP (fun p => p.1 == symbol) })
  | none =>
    let v := fetch t symbol
    let es := (symbol, v) :: st.entries
    (v, { entries := if lruMaxsize < es.length then es.dropLast else es,
          fetchCount := st.fetchCount + 1 })

/-- Observer: the result dict has no `"error"` key. -/
def isOk : StockResult → Bool
  | .ok _ => true
  | .error _ => false

/-- Observer: the success dict carried by a result, if any (`"error" not in
data` in the mover loop keeps exactly these). -/
def okValue : StockResult → Option StockQuote
  | .ok q => some q
  | .error _ => none

/-- Observer: the `change_percent` field of a success result. -/
def changePercentOf : StockResult → Option FieldVal
  | .ok q => some q.change_percent
  | .error _ => none

/-! ### Concrete inputs used by counterexamples and witnesses -/

/-- An `info` dict whose `previousClose` is present but zero. -/
def zeroPrevInfo : YfInfo := { regularMarketPrice := some 100, previousClose := some 0 }

/-- A single upstream history row with integral prices. -/
def sampleRow : HistRow :=
  { date := "2024-01-01", open_ := 100, high := 100, low := 100, close := 100, volume := 5 }

/-- A time-dependent upstream behaviour: the fetched value records the time of
the fetch, so a cached value is distinguishable from a fresh one. -/
def timeStampedFetch : ℕ → String → StockResult := fun t _ => .error (toString t)

/-- A quote with a given symbol and percent change and placeholder data
elsewhere. -/
def mkQ (s : String) (cp : ℚ) : StockQuote :=
  { symbol := s, company_name := .na, current_price := 0, previous_close := 0,
    change := 0, change_percent := .num cp, volume := .na, market_cap := .na,
    pe_ratio := .na, dividend_yield := .na, week52_high := .na, week52_low := .na,
    sector := .na, industry := .na }

/-- Per-symbol outcomes realizing the spec's mover example: percent changes
`[+5, +5, -3, +2, -1]` in watch-list order, the remaining symbols failing. -/
def exFetch : String → StockResult := fun s =>
  if s = "RELIANCE" then .ok (mkQ "RELIANCE" 5)
  else if s = "TCS" then .ok (mkQ "TCS" 5)
  else if s = "INFY" then .ok (mkQ "INFY" (-3))
  else if s = "HDFCBANK" then .ok (mkQ "HDFCBANK" 2)
  else if s = "ICICIBANK" then .ok (mkQ "ICICIBANK" (-1))
  else .error "UpstreamUnavailable"

/-- Same per-symbol successes as `exFetch`, but the failures carry a different
error message. -/
def exFetchAlt : String → StockResult := fun s =>
  if s = "RELIANCE" then .ok (mkQ "RELIANCE" 5)
  else if s = "TCS" then .ok (mkQ "TCS" 5)
  else if s = "INFY" then .ok (mkQ "INFY" (-3))
  else if s = "HDFCBANK" then .ok (mkQ "HDFCBANK" 2)
  else if s = "ICICIBANK" then .ok (mkQ "ICICIBANK" (-1))
  else .error "a different upstream failure"

/-- A fetch whose successes are well-formed by construction: the quote's
`symbol` field is the uppercased requested symbol, as `get_stock_info`
guarantees. -/
def wfFetch : String → StockResult := fun s => .ok (mkQ (pyUpper s) 5)

/-- An enrichment behaviour for `search_stocks` in which every per-symbol
`stock.info` lookup raises. -/
def noEnrich : String → Except String EnrichInfo := fun _ => .error "upstream down"

end StockData

/-! ## Supporting lemmas -/

namespace StockData

theorem leadsWith_append (l r : List Char) : leadsWith l (l ++ r) = true := by
  induction l with
  | nil => rfl
  | cons a as ih => simp [leadsWith, ih]

theorem occursIn_of_leadsWith {n h : List Char} (hl : leadsWith n h = true) :
    occursIn n h = true := by
  cases h with
  | nil => simpa [occursIn] using hl
  | cons b bs => simp [occursIn, hl]

theorem occursIn_append (pre l r : List Char) :
    occursIn l (pre ++ (l ++ r)) = true := by
  induction pre with
  | nil => exact occursIn_of_leadsWith (leadsWith_append l r)
  | cons c cs ih => simp [occursIn, ih]

theorem strOccurs_middle (a s b : String) : strOccurs (a ++ s ++ b) s = true := by
  have hd : (a ++ s ++ b).data = a.data ++ (s.data ++ b.data) := by
    simp [String.data_append]
  simp [strOccurs, hd, occursIn_append]

theorem strOccurs_middle2 (a s b c : String) :
    strOccurs (a ++ s ++ b ++ c) s = true := by
  have hd : (a ++ s ++ b ++ c).data = a.data ++ (s.data ++ (b.data ++ c.data)) := by
    simp [String.data_append]
  simp [strOccurs, hd]
  have h := occursIn_append a.data s.data (b.data ++ c.data)
  simpa using h

theorem strOccurs_right (a s : String) : strOccurs (a ++ s) s = true := by
  have h := strOccurs_middle a s ""
  simpa using h

theorem rat_floor_eq_floor (q : ℚ) : Rat.floor q = ⌊q⌋ := by
  rw [Rat.floor_def', Rat.floor_def]

theorem roundHalfEven_intCast (n : ℤ) : roundHalfEven (n : ℚ) = n := by
  unfold roundHalfEven
  rw [rat_floor_eq_floor, Int.floor_intCast]
  norm_num

theorem round2_intCast (n : ℤ) : round2 (n : ℚ) = (n : ℚ) := by
  unfold round2
  have h : ((n : ℚ)) * 100 = ((n * 100 : ℤ) : ℚ) := by push_cast; ring
  rw [h, roundHalfEven_intCast]
  push_cast
  ring

theorem round2_zero : round2 0 = 0 := by
  simpa using round2_intCast 0

theorem pyInsert_perm (r : α → α → Bool) (a : α) (l : List α) :
    List.Perm (pyInsert r a l) (a :: l) := by
  induction l with
  | nil => exact List.Perm.refl _
  | cons b bs ih =>
    by_cases h : r a b
    · simp [pyInsert, h]
    · simp only [pyInsert, if_neg h]
      exact (ih.cons b).trans (List.Perm.swap a b bs)

theorem pySorted_perm (r : α → α → Bool) (l : List α) :
    List.Perm (pySorted r l) l := by
  induction l with
  | nil => exact List.Perm.refl _
  | cons a as ih => exact (pyInsert_perm r a (pySorted r as)).trans (ih.cons a)

theorem mem_pySorted (r : α → α → Bool) (l : List α) (x : α) :
    x ∈ pySorted r l ↔ x ∈ l := (pySorted_perm r l).mem_iff

theorem pyInsert_pairwise (r : α → α → Bool)
    (htot : ∀ a b, r a b = true ∨ r b a = true)
    (htrans : ∀ a b c, r a b = true → r b c = true → r a c = true)
    (a : α) (l : List α) (hl : l.Pairwise (fun x y => r x y = true)) :
    (pyInsert r a l).Pairwise (fun x y => r x y = true) := by
  induction l with
  | nil => simp [pyInsert]
  | cons b bs ih =>
    rcases List.pairwise_cons.mp hl with ⟨hb, hbs⟩
    by_cases h : r a b = true
    · simp only [pyInsert, if_pos h]
      refine List.pairwise_cons.mpr ⟨?_, hl⟩
      intro y hy
      rcases List.mem_cons.mp hy with rfl | hy'
      · exact h
      · exact htrans a b y h (hb y hy')
    · simp only [pyInsert, if_neg h]
      refine List.pairwise_cons.mpr ⟨?_, ih hbs⟩
      intro y hy
      have hy' := (pyInsert_perm r a bs).mem_iff.mp hy
      rcases List.mem_cons.mp hy' with hya | hy''
      · rw [hya]
        rcases htot a b with hab | hba
        · exact absurd hab h
        · exact hba
      · exact hb y hy''

theorem pySorted_pairwise (r : α → α → Bool)
    (htot : ∀ a b, r a b = true ∨ r b a = true)
    (htrans : ∀ a b c, r a b = true → r b c = true → r a c = true)
    (l : List α) :
    (pySorted r l).Pairwise (fun x y => r x y = true) := by
  induction l with
  | nil => simp [pySorted]
  | cons a as ih => exact pyInsert_pairwise r htot htrans a _ ih

theorem pyInsert_filter_key (r : α → α → Bool) (key : α → ℚ)
    (hkr : ∀ x y, key x = key y → r x y = true) (c : ℚ) (a : α) (l : List α) :
    (pyInsert r a l).filter (fun x => decide (key x = c)) =
      if key a = c then a :: l.filter (fun x => decide (key x = c))
      else l.filter (fun x => decide (key x = c)) := by
  induction l with
  | nil =>
    by_cases hac : key a = c <;> simp [pyInsert, hac]
  | cons b bs ih =>
    by_cases hr : r a b = true
    · simp only [pyInsert, if_pos hr]
      by_cases hac : key a = c <;> simp [List.filter_cons, hac]
    · simp only [pyInsert, if_neg hr]
      by_cases hac : key a = c
      · have hbc : key b ≠ c := by
          intro hbceq
          exact hr (hkr a b (hac.trans hbceq.symm))
        simp [List.filter_cons, hac, hbc, ih]
      · simp [List.filter_cons, hac, ih]

theorem pySorted_filter_key (r : α → α → Bool) (key : α → ℚ)
    (hkr : ∀ x y, key x = key y → r x y = true) (c : ℚ) (l : List α) :
    (pySorted r l).filter (fun x => decide (key x = c)) =
      l.filter (fun x => decide (key x = c)) := by
  induction l with
  | nil => rfl
  | cons a as ih =>
    rw [show pySorted r (a :: as) = pyInsert r a (pySorted r as) from rfl,
        pyInsert_filter_key r key hkr c a (pySorted r as)]
    by_cases hac : key a = c <;> simp [List.filter_cons, hac, ih]

theorem collectStocks_eq_filterMap (fetch : String → StockResult) (ss : List String) :
    collectStocks fetch ss = ss.filterMap (fun s => okValue (fetch s)) := by
  induction ss with
  | nil => rfl
  | cons s rest ih =>
    cases h : fetch s <;>
      simp [collectStocks, List.filterMap_cons, h, okValue, ih]

theorem mem_collectStocks {fetch : String → StockResult} {ss : List String}
    {q : StockQuote} (hq : q ∈ collectStocks fetch ss) :
    ∃ s, s ∈ ss ∧ fetch s = .ok q := by
  rw [collectStocks_eq_filterMap] at hq
  rcases List.mem_filterMap.mp hq with ⟨s, hs, hok⟩
  refine ⟨s, hs, ?_⟩
  cases hfs : fetch s with
  | ok q' =>
    rw [hfs] at hok
    simp [okValue] at hok
    rw [hok]
  | error m =>
    rw [hfs] at hok
    simp [okValue] at hok

theorem searchEntry_symbol (enrich : String → Except String EnrichInfo)
    (sym yfSym : String) : (searchEntry enrich sym yfSym).symbol = sym := by
  unfold searchEntry
  cases enrich yfSym <;> rfl

theorem searchLoop_eq (enrich : String → Except String EnrichInfo)
    (ql : List Char) (tbl : List (String × String)) :
    searchLoop enrich ql tbl =
      (tbl.filter (fun p => occursIn ql (pyLower p.1).data)).map
        (fun p => searchEntry enrich p.1 p.2) := by
  induction tbl with
  | nil => rfl
  | cons p rest ih =>
    obtain ⟨sym, yfSym⟩ := p
    by_cases h : occursIn ql (pyLower sym).data <;>
      simp [searchLoop, List.filter_cons, h, ih]

theorem descBy_total (key : α → ℚ) :
    ∀ a b, descBy key a b = true ∨ descBy key b a = true := by
  intro a b
  rcases le_total (key a) (key b) with h | h
  · right; simpa [descBy] using h
  · left; simpa [descBy] using h

theorem descBy_trans (key : α → ℚ) :
    ∀ a b c, descBy key a b = true → descBy key b c = true →
      descBy key a c = true := by
  intro a b c hab hbc
  simp [descBy] at hab hbc ⊢
  exact hbc.trans hab

theorem ascBy_total (key : α → ℚ) :
    ∀ a b, ascBy key a b = true ∨ ascBy key b a = true := by
  intro a b
  rcases le_total (key a) (key b) with h | h
  · left; simpa [ascBy] using h
  · right; simpa [ascBy] using h

theorem ascBy_trans (key : α → ℚ) :
    ∀ a b c, ascBy key a b = true → ascBy key b c = true →
      ascBy key a c = true := by
  intro a b c hab hbc
  simp [ascBy] at hab hbc ⊢
  exact hab.trans hbc

theorem descBy_of_key_eq (key : α → ℚ) :
    ∀ x y, key x = key y → descBy key x y = true := by
  intro x y h
  simp [descBy, h]

theorem ascBy_of_key_eq (key : α → ℚ) :
    ∀ x y, key x = key y → ascBy key x y = true := by
  intro x y h
  simp [ascBy, h]

end StockData

/-! ## Claims -/

namespace StockData

/-- C1 (counterexample). The cached `get_stock_info` has no time-to-live: with
the upstream behaviour stamping each fetched value with the fetch time, a first
call at time 0 and a second call 1000000 seconds later (past any configured
ttl) still perform exactly one upstream fetch, the second call returns the
entry cached at time 0, and no new upstream fetch is issued after expiry —
contradicting the claim that a call after the ttl issues a new upstream fetch
rather than returning the stale entry. -/
theorem cache_ttl_counterexample :
    (cachedGetStockInfo timeStampedFetch 1000000 "TCS"
       (cachedGetStockInfo timeStampedFetch 0 "TCS" emptyCache).2).2.fetchCount = 1 ∧
    (cachedGetStockInfo timeStampedFetch 1000000 "TCS"
       (cachedGetStockInfo timeStampedFetch 0 "TCS" emptyCache).2).1 =
      .error "0" ∧
    ¬ ((cachedGetStockInfo timeStampedFetch 1000000 "TCS"
       (cachedGetStockInfo timeStampedFetch 0 "TCS" emptyCache).2).2.fetchCount = 2) ∧
    timeStampedFetch 1000000 "TCS" ≠ .error "0" := by decide

/-- C1 (amended). `get_stock_info` is memoized by `functools.lru_cache(128)`,
which has no time-to-live: starting from an empty cache, two calls with the
same symbol at arbitrary times issue exactly one upstream fetch in total, and
the second call returns the cached result of the first regardless of how much
time has passed; a cached entry is only ever displaced by the size bound. -/
theorem cache_hit_never_expires (fetch : ℕ → String → StockResult)
    (t1 t2 : ℕ) (sym : String) :
    (cachedGetStockInfo fetch t1 sym emptyCache).2.fetchCount = 1 ∧
    (cachedGetStockInfo fetch t2 sym
       (cachedGetStockInfo fetch t1 sym emptyCache).2).2.fetchCount = 1 ∧
    (cachedGetStockInfo fetch t2 sym
       (cachedGetStockInfo fetch t1 sym emptyCache).2).1 =
      (cachedGetStockInfo fetch t1 sym emptyCache).1 := by
  have h1 : cachedGetStockInfo fetch t1 sym emptyCache =
      (fetch t1 sym, ⟨[(sym, fetch t1 sym)], 1⟩) := by
    simp [cachedGetStockInfo, emptyCache, lruMaxsize, List.lookup]
  rw [h1]
  refine ⟨rfl, ?_, ?_⟩ <;>
    simp [cachedGetStockInfo, List.lookup]

/-- C2 (counterexample). With an upstream `info` dict whose `previousClose` is
present but zero (and `regularMarketPrice` 100), the `change_percent` field of
the returned record is the number 0, not the `"N/A"` sentinel — contradicting
the claim that a zero previous close yields the sentinel rather than
0-by-default. -/
theorem change_percent_sentinel_counterexample :
    changePercentOf (getStockInfo (.ok (some zeroPrevInfo)) (.ok []) "TCS") =
      some (FieldVal.num 0) ∧
    some (FieldVal.num 0) ≠ some FieldVal.na := by
  refine ⟨?_, by simp⟩
  simp [getStockInfo, zeroPrevInfo, changePercentOf, round2_zero]

/-- C2 (amended). In both the primary path of `get_stock_info` and the
fallback path, `change_percent` is computed as `change / previous_close * 100`
only when the effective previous close is nonzero; when it is zero the stored
field is the number 0 (the division is skipped, so no NaN or infinity can
arise), and a missing `previousClose` key defaults the previous close to the
current price.  The field is always a number, never the `"N/A"` sentinel. -/
theorem change_percent_guarded
    (info : YfInfo) (histFetch : Except String (List HistRow)) (symbol : String)
    (current : ℚ) (hcur : info.regularMarketPrice = some current) :
    (info.previousClose.getD current ≠ 0 →
       changePercentOf (getStockInfo (.ok (some info)) histFetch symbol) =
         some (.num (round2 ((current - info.previousClose.getD current) /
            info.previousClose.getD current * 100)))) ∧
    (info.previousClose.getD current = 0 →
       changePercentOf (getStockInfo (.ok (some info)) histFetch symbol) =
         some (.num 0)) ∧
    changePercentOf (getStockInfo (.ok (some info)) histFetch symbol) ≠
      some FieldVal.na ∧
    (∀ (h : HistRow) (t : List HistRow),
       ((if 1 < (h :: t).length then ((h :: t).dropLast.getLastD h).close
         else ((h :: t).getLastD h).close) = 0 →
        changePercentOf (fallbackStockInfo (.ok (h :: t)) symbol) =
          some (.num 0)) ∧
       changePercentOf (fallbackStockInfo (.ok (h :: t)) symbol) ≠
         some FieldVal.na) := by
  refine ⟨?_, ?_, ?_, ?_⟩
  · intro hnz
    simp [getStockInfo, hcur, changePercentOf, hnz, div_mul_eq_mul_div]
  · intro hz
    simp [getStockInfo, hcur, changePercentOf, hz, round2_zero]
  · simp [getStockInfo, hcur, changePercentOf]
  · intro h t
    constructor
    · intro hz
      have hz' : (if 0 < t.length then ((h :: t).dropLast.getLast?.getD h).close
          else ((h :: t).getLast?.getD h).close) = 0 := by simpa using hz
      simp [fallbackStockInfo, changePercentOf, hz', round2_zero]
    · simp [fallbackStockInfo, changePercentOf]

/-- C2 (witness). The amended statement applied at the concrete dict with
`regularMarketPrice` 100 and `previousClose` 0. -/
theorem change_percent_guarded_witness :
    zeroPrevInfo.regularMarketPrice = some 100 ∧
    zeroPrevInfo.previousClose.getD 100 = 0 ∧
    changePercentOf (getStockInfo (.ok (some zeroPrevInfo)) (.ok []) "TCS") =
      some (FieldVal.num 0) :=
  ⟨rfl, rfl,
   (change_percent_guarded zeroPrevInfo (.ok []) "TCS" 100 rfl).2.1 rfl⟩

/-- C3 (counterexample). When the primary `stock.info` fetch raises,
`get_stock_info` returns an error result immediately even though the fallback
strategy would succeed on the same history data — contradicting the claim that
a raise during the surrounding I/O falls through to the secondary strategy and
that an error is returned only when both strategies fail. -/
theorem primary_raise_no_fallback_counterexample :
    getStockInfo (.error "boom") (.ok [sampleRow]) "TCS" =
      .error "Error fetching data for TCS: boom" ∧
    isOk (fallbackStockInfo (.ok [sampleRow]) "TCS") = true :=
  ⟨rfl, rfl⟩

/-- C3 (amended). `get_stock_info` falls through to `_fallback_stock_info`
exactly when the primary payload is an empty dict or lacks the
`regularMarketPrice` key; when the primary fetch raises, the operation returns
an error result directly without attempting the fallback, and when the primary
payload has a usable price the result is a success, never the fallback. -/
theorem fallback_on_missing_price_only
    (histFetch : Except String (List HistRow)) (symbol e : String) :
    getStockInfo (.ok none) histFetch symbol = fallbackStockInfo histFetch symbol ∧
    (∀ info : YfInfo, info.regularMarketPrice = none →
       getStockInfo (.ok (some info)) histFetch symbol =
         fallbackStockInfo histFetch symbol) ∧
    getStockInfo (.error e) histFetch symbol =
      .error ("Error fetching data for " ++ symbol ++ ": " ++ e) ∧
    (∀ (info : YfInfo) (c : ℚ), info.regularMarketPrice = some c →
       isOk (getStockInfo (.ok (some info)) histFetch symbol) = true) := by
  refine ⟨rfl, ?_, rfl, ?_⟩
  · intro info h
    simp [getStockInfo, h]
  · intro info c h
    simp [getStockInfo, h, isOk]

/-- C3 (witness). The amended statement applied to a dict without a
`regularMarketPrice` key and to an empty history. -/
theorem fallback_on_missing_price_only_witness :
    (YfInfo.mk none none none none none none none none none none none).regularMarketPrice
      = none ∧
    getStockInfo
        (.ok (some (YfInfo.mk none none none none none none none none none none none)))
        (.ok []) "TCS" =
      fallbackStockInfo (.ok []) "TCS" :=
  ⟨rfl, (fallback_on_missing_price_only (.ok []) "TCS" "x").2.1 _ rfl⟩

/-- C4 (counterexample). When the primary payload is empty and the fallback
history is empty, `get_stock_info` returns the error result
`"No fallback data available."`, whose message does not reference the
requested symbol — contradicting the claim that every failure is converted to
an error message referencing the requested symbol or query. -/
theorem fallback_error_message_counterexample :
    getStockInfo (.ok none) (.ok []) "TCS" = .error "No fallback data available." ∧
    strOccurs "No fallback data available." "TCS" = false :=
  ⟨rfl, by decide⟩

/-- C4 (amended). Every operation converts upstream failures into tagged error
results at its own boundary (the embedding is total, so nothing propagates):
the primary-path error of `get_stock_info` and both error results of
`get_historical_data` carry messages that contain the requested symbol, while
the two fallback-path errors are the fixed strings `"Fallback failed: ..."`
and `"No fallback data available."`, which do not mention the symbol. -/
theorem operations_error_tagging :
    ∀ (e : String) (histFetch : Except String (List HistRow)) (symbol period : String),
    getStockInfo (.error e) histFetch symbol =
      .error ("Error fetching data for " ++ symbol ++ ": " ++ e) ∧
    strOccurs ("Error fetching data for " ++ symbol ++ ": " ++ e) symbol = true ∧
    (∀ m, getHistoricalData histFetch symbol period = .error m →
       strOccurs m symbol = true) ∧
    fallbackStockInfo (.error e) symbol = .error ("Fallback failed: " ++ e) ∧
    fallbackStockInfo (.ok []) symbol = .error "No fallback data available." := by
  intro e histFetch symbol period
  refine ⟨rfl, strOccurs_middle2 "Error fetching data for " symbol ": " e, ?_, rfl, rfl⟩
  intro m h
  cases histFetch with
  | error e2 =>
    simp only [getHistoricalData, HistResult.error.injEq] at h
    rw [← h]
    exact strOccurs_middle2 "Error fetching historical data for " symbol ": " e2
  | ok rows =>
    by_cases hr : rows.isEmpty
    · simp only [getHistoricalData, if_pos hr, HistResult.error.injEq] at h
      rw [← h]
      exact strOccurs_right "No historical data found for " symbol
    · simp [getHistoricalData, hr] at h

/-- C4 (witness). The amended statement applied to an empty history payload:
the resulting error message contains the symbol. -/
theorem operations_error_tagging_witness :
    getHistoricalData (.ok []) "TCS" "1mo" =
      .error "No historical data found for TCS" ∧
    strOccurs "No historical data found for TCS" "TCS" = true :=
  ⟨rfl, (operations_error_tagging "x" (.ok []) "TCS" "1mo").2.2.1 _ rfl⟩

end StockData

namespace StockData

/-- C5 (confirmed). `get_top_gainers_losers` partitions the successfully
fetched quotes into gainers (`change_percent > 0`) and losers
(`change_percent < 0`), sorts gainers descending and losers ascending by
`change_percent`, truncates each to 5, quotes with equal `change_percent`
retain their relative input order (for every key value, filtering the sorted
list to that key gives exactly the input filtered to that key, in order), and
quotes with `change_percent` exactly 0 appear in neither list. -/
theorem movers_partition_sorted_stable
    (sd : List StockQuote) (fetch : String → StockResult) (now : String) :
    (getTopGainersLosers fetch now).top_gainers =
      (gainersSorted (collectStocks fetch watchUsed)).take 5 ∧
    (getTopGainersLosers fetch now).top_losers =
      (losersSorted (collectStocks fetch watchUsed)).take 5 ∧
    (∀ q, q ∈ (gainersSorted sd).take 5 → 0 < changePercentKey q) ∧
    (∀ q, q ∈ (losersSorted sd).take 5 → changePercentKey q < 0) ∧
    ((gainersSorted sd).take 5).length ≤ 5 ∧
    ((losersSorted sd).take 5).length ≤ 5 ∧
    (gainersSorted sd).Pairwise
      (fun x y => changePercentKey y ≤ changePercentKey x) ∧
    (losersSorted sd).Pairwise
      (fun x y => changePercentKey x ≤ changePercentKey y) ∧
    (∀ c : ℚ, (gainersSorted sd).filter (fun x => decide (changePercentKey x = c)) =
       (sd.filter (fun s => decide (0 < changePercentKey s))).filter
         (fun x => decide (changePercentKey x = c))) ∧
    (∀ c : ℚ, (losersSorted sd).filter (fun x => decide (changePercentKey x = c)) =
       (sd.filter (fun s => decide (changePercentKey s < 0))).filter
         (fun x => decide (changePercentKey x = c))) ∧
    (∀ q, changePercentKey q = 0 →
       q ∉ (gainersSorted sd).take 5 ∧ q ∉ (losersSorted sd).take 5) := by
  have hgpos : ∀ q, q ∈ (gainersSorted sd).take 5 → 0 < changePercentKey q := by
    intro q hq
    have h1 : q ∈ gainersSorted sd := List.take_subset 5 _ hq
    have h2 := (mem_pySorted _ _ q).mp h1
    have h3 := List.of_mem_filter h2
    exact of_decide_eq_true h3
  have hlneg : ∀ q, q ∈ (losersSorted sd).take 5 → changePercentKey q < 0 := by
    intro q hq
    have h1 : q ∈ losersSorted sd := List.take_subset 5 _ hq
    have h2 := (mem_pySorted _ _ q).mp h1
    have h3 := List.of_mem_filter h2
    exact of_decide_eq_true h3
  refine ⟨rfl, rfl, hgpos, hlneg, List.length_take_le 5 _, List.length_take_le 5 _,
    ?_, ?_, ?_, ?_, ?_⟩
  · have h := pySorted_pairwise (descBy changePercentKey)
      (descBy_total changePercentKey) (descBy_trans changePercentKey)
      (sd.filter (fun s => decide (0 < changePercentKey s)))
    exact h.imp (fun hxy => of_decide_eq_true hxy)
  · have h := pySorted_pairwise (ascBy changePercentKey)
      (ascBy_total changePercentKey) (ascBy_trans changePercentKey)
      (sd.filter (fun s => decide (changePercentKey s < 0)))
    exact h.imp (fun hxy => of_decide_eq_true hxy)
  · intro c
    exact pySorted_filter_key (descBy changePercentKey) changePercentKey
      (descBy_of_key_eq changePercentKey) c _
  · intro c
    exact pySorted_filter_key (ascBy changePercentKey) changePercentKey
      (ascBy_of_key_eq changePercentKey) c _
  · intro q hq0
    constructor
    · intro hmem
      have := hgpos q hmem
      rw [hq0] at this
      exact lt_irrefl 0 this
    · intro hmem
      have := hlneg q hmem
      rw [hq0] at this
      exact lt_irrefl 0 this

/-- C5 (witness). The theorem applied to the run realizing the spec example
(percent changes +5, +5, -3, +2, -1 in watch-list order): the first +5 quote
is among the top gainers and its key is positive. -/
theorem movers_partition_sorted_stable_witness :
    (mkQ "RELIANCE" 5) ∈
      (gainersSorted (collectStocks exFetch watchUsed)).take 5 ∧
    0 < changePercentKey (mkQ "RELIANCE" 5) :=
  ⟨by decide,
   (movers_partition_sorted_stable (collectStocks exFetch watchUsed)
      exFetch "T").2.2.1 _ (by decide)⟩

/-- C6 (confirmed). `get_top_gainers_losers` never aborts on a per-symbol
fetch error: the quotes it ranks are exactly the per-symbol successes of the
watch-list (in order), the returned MoverList is computed from those, and the
result is unchanged under any modification of the error messages — two fetch
behaviours agreeing on successes yield identical rankings. -/
theorem movers_skip_failed
    (fetch fetch2 : String → StockResult) (now : String) :
    collectStocks fetch watchUsed =
      watchUsed.filterMap (fun s => okValue (fetch s)) ∧
    getTopGainersLosers fetch now =
      { top_gainers :=
          (gainersSorted (watchUsed.filterMap (fun s => okValue (fetch s)))).take 5,
        top_losers :=
          (losersSorted (watchUsed.filterMap (fun s => okValue (fetch s)))).take 5,
        timestamp := now } ∧
    ((∀ s, s ∈ watchUsed → okValue (fetch s) = okValue (fetch2 s)) →
       getTopGainersLosers fetch now = getTopGainersLosers fetch2 now) := by
  refine ⟨collectStocks_eq_filterMap fetch watchUsed, ?_, ?_⟩
  · simp [getTopGainersLosers, collectStocks_eq_filterMap]
  · intro hag
    have heq : watchUsed.filterMap (fun s => okValue (fetch s)) =
        watchUsed.filterMap (fun s => okValue (fetch2 s)) :=
      List.filterMap_congr hag
    simp [getTopGainersLosers, collectStocks_eq_filterMap, heq]

/-- C6 (witness). The theorem applied to two concrete runs in which five
symbols fail with different error messages: the rankings coincide. -/
theorem movers_skip_failed_witness :
    (∀ s, s ∈ watchUsed → okValue (exFetch s) = okValue (exFetchAlt s)) ∧
    getTopGainersLosers exFetch "T" = getTopGainersLosers exFetchAlt "T" :=
  ⟨by decide, (movers_skip_failed exFetch exFetchAlt "T").2.2 (by decide)⟩

/-- C7 (counterexample). Symbol resolution does not trim surrounding
whitespace: `" reliance "` resolves to `" RELIANCE .NS"`, not to
`"RELIANCE.NS"` — contradicting the claim that resolution trims surrounding
whitespace. -/
theorem resolve_no_trim_counterexample :
    resolveSymbol " reliance " = " RELIANCE .NS" ∧
    (" RELIANCE .NS" : String) ≠ "RELIANCE.NS" :=
  ⟨rfl, by decide⟩

/-- C7 (amended). Symbol resolution is deterministic and case-insensitive via
uppercasing, but does not trim whitespace: a ticker whose trimmed-free
uppercase form is in the alias table resolves to its table entry, and every
other ticker (including whitespace-padded ones) resolves to its uppercase form
with the default `".NS"` suffix appended — never a lookup failure. -/
theorem resolve_case_insensitive_suffix :
    resolveSymbol "reliance" = "RELIANCE.NS" ∧
    resolveSymbol "RELIANCE" = "RELIANCE.NS" ∧
    resolveSymbol "Reliance" = "RELIANCE.NS" ∧
    resolveSymbol "FOO" = "FOO.NS" ∧
    (∀ s v, nseSymbols.lookup (pyUpper s) = some v → resolveSymbol s = v) ∧
    (∀ s, nseSymbols.lookup (pyUpper s) = none →
       resolveSymbol s = pyUpper s ++ ".NS") := by
  refine ⟨rfl, rfl, rfl, rfl, ?_, ?_⟩
  · intro s v h
    simp [resolveSymbol, h]
  · intro s h
    simp [resolveSymbol, h]

/-- C7 (witness). The amended statement applied to an unknown ticker. -/
theorem resolve_case_insensitive_suffix_witness :
    nseSymbols.lookup (pyUpper "bar") = none ∧
    resolveSymbol "bar" = pyUpper "bar" ++ ".NS" :=
  ⟨by decide, resolve_case_insensitive_suffix.2.2.2.2.2 "bar" (by decide)⟩

/-- C8 (confirmed). `search_stocks` returns exactly the alias-table entries
whose ticker contains the query as a case-insensitive substring, in table
order, truncated to 10, for every enrichment behaviour (failures are masked by
placeholder fields, per `searchEntry`); it returns a list for every input
(never an error result), `"tc"` matches `TCS` and `ITC`, and `"zzz"` yields
the empty list. -/
theorem search_substring_match :
    ∀ (enrich : String → Except String EnrichInfo) (query : String),
    searchStocks enrich query = searchSpec enrich query ∧
    (searchStocks enrich query).length ≤ 10 ∧
    (searchStocks enrich "tc").map SearchEntry.symbol = ["TCS", "ITC"] ∧
    searchStocks enrich "zzz" = [] := by
  intro enrich query
  refine ⟨?_, ?_, ?_, ?_⟩
  · rw [searchStocks, searchSpec, searchLoop_eq]
  · rw [searchStocks]
    exact List.length_take_le 10 _
  · rw [searchStocks, searchLoop_eq]
    have hf : nseSymbols.filter
        (fun p => occursIn (pyLower "tc").data (pyLower p.1).data) =
        [("TCS", "TCS.NS"), ("ITC", "ITC.NS")] := by decide
    rw [hf]
    simp [searchEntry_symbol]
  · rw [searchStocks, searchLoop_eq]
    have hf : nseSymbols.filter
        (fun p => occursIn (pyLower "zzz").data (pyLower p.1).data) = [] := by decide
    rw [hf]
    rfl

/-- C9 (confirmed). `get_historical_data` returns the explicit error
`"No historical data found for <symbol>"` on an empty upstream payload, never
a success with an empty series, and on a non-empty payload returns a success
whose data is exactly the upstream rows, converted row-by-row in order. -/
theorem history_empty_error_nonempty_preserves
    (histFetch : Except String (List HistRow)) (symbol period : String) :
    getHistoricalData (.ok []) symbol period =
      .error ("No historical data found for " ++ symbol) ∧
    (∀ rows : List HistRow, rows ≠ [] →
       getHistoricalData (.ok rows) symbol period =
         .ok { symbol := pyUpper symbol, period := period,
               data := rows.map histRowOut }) ∧
    (∀ hs, getHistoricalData histFetch symbol period = .ok hs → hs.data ≠ []) := by
  refine ⟨rfl, ?_, ?_⟩
  · intro rows hrows
    have : rows.isEmpty = false := by
      simpa [List.isEmpty_iff] using hrows
    simp [getHistoricalData, this]
  · intro hs h
    cases histFetch with
    | error e => simp [getHistoricalData] at h
    | ok rows =>
      by_cases hr : rows.isEmpty
      · simp [getHistoricalData, hr] at h
      · simp only [getHistoricalData, Bool.not_eq_true] at h
        rw [if_neg (by simp [hr])] at h
        cases h
        have hne : rows ≠ [] := by simpa [List.isEmpty_iff] using hr
        simp [List.map_eq_nil_iff, hne]

/-- C9 (witness). The theorem applied to a one-row payload. -/
theorem history_empty_error_nonempty_preserves_witness :
    ([sampleRow] : List HistRow) ≠ [] ∧
    getHistoricalData (.ok [sampleRow]) "TCS" "1mo" =
      .ok { symbol := pyUpper "TCS", period := "1mo",
            data := [sampleRow].map histRowOut } :=
  ⟨by simp,
   (history_empty_error_nonempty_preserves (.ok [sampleRow]) "TCS" "1mo").2.1
     [sampleRow] (by simp)⟩

/-- C10 (confirmed). `get_top_gainers_losers` iterates only the first 10
alias-table keys (RELIANCE through KOTAKBANK); for any fetch whose successful
quotes carry the uppercased requested symbol (as `get_stock_info` guarantees),
every quote in the returned gainers or losers has its symbol among those 10,
and in particular never LT, ASIANPAINT, MARUTI, BAJFINANCE or HCLTECH. -/
theorem movers_watchlist_first_ten
    (fetch : String → StockResult) (now : String)
    (hwf : ∀ s q, fetch s = .ok q → q.symbol = pyUpper s) :
    watchUsed = ["RELIANCE", "TCS", "INFY", "HDFCBANK", "ICICIBANK",
                 "HINDUNILVR", "SBIN", "BHARTIARTL", "ITC", "KOTAKBANK"] ∧
    (∀ q, (q ∈ (getTopGainersLosers fetch now).top_gainers ∨
           q ∈ (getTopGainersLosers fetch now).top_losers) →
       q.symbol ∈ watchUsed ∧
       q.symbol ∉ (["LT", "ASIANPAINT", "MARUTI", "BAJFINANCE", "HCLTECH"] :
         List String)) := by
  refine ⟨by decide, ?_⟩
  intro q hq
  have hmem : q ∈ collectStocks fetch watchUsed := by
    rcases hq with hg | hl
    · have h1 : q ∈ gainersSorted (collectStocks fetch watchUsed) :=
        List.take_subset 5 _ hg
      have h2 := (mem_pySorted _ _ q).mp h1
      exact List.mem_of_mem_filter h2
    · have h1 : q ∈ losersSorted (collectStocks fetch watchUsed) :=
        List.take_subset 5 _ hl
      have h2 := (mem_pySorted _ _ q).mp h1
      exact List.mem_of_mem_filter h2
  rcases mem_collectStocks hmem with ⟨s, hs, hok⟩
  have hsym : q.symbol = pyUpper s := hwf s q hok
  have hup : pyUpper s = s := by
    have hall : ∀ x, x ∈ watchUsed → pyUpper x = x := by decide
    exact hall s hs
  constructor
  · rw [hsym, hup]
    exact hs
  · rw [hsym, hup]
    have hnot : ∀ x, x ∈ watchUsed →
        x ∉ (["LT", "ASIANPAINT", "MARUTI", "BAJFINANCE", "HCLTECH"] :
          List String) := by decide
    exact hnot s hs

/-- C10 (witness). The theorem applied to a well-formed fetch succeeding on
every symbol: the top gainer is not one of the last five table symbols. -/
theorem movers_watchlist_first_ten_witness :
    (mkQ "RELIANCE" 5).symbol ∉
      (["LT", "ASIANPAINT", "MARUTI", "BAJFINANCE", "HCLTECH"] : List String) :=
  ((movers_watchlist_first_ten wfFetch "T"
      (fun s q h => by simp [wfFetch] at h; simp [← h, mkQ])).2
    (mkQ "RELIANCE" 5) (Or.inl (by decide))).2

end StockData
